import Mathlib

/-!
Shallow embedding of `src/simple_vector.h` (template class `SimpleVector<Type>`
plus its free comparison operators).

The container state is modelled by the logically live element prefix
`items_[0, size_)` together with the `capacity_` field.  Slots of the backing
buffer in `[size_, capacity_)` are uninitialized or stale in the source and are
never read before being overwritten, so they are not tracked; `size_` equals
`elems.length`.  Machine `size_t` arithmetic never overflows in the reachable
states considered (sizes stay tiny), so `Nat` is used directly.  C++ element
moves are modelled as copies (exact for trivially copyable element types, and
the logical sequence is the same either way).  `Type{}` is `default` of an
`Inhabited` instance.
-/

namespace SimpleVec

structure SimpleVector (α : Type) where
  elems : List α
  capacity : Nat
deriving Repr, DecidableEq

variable {α : Type}

/-- `GetSize`: returns `size_`. -/
def getSize (v : SimpleVector α) : Nat :=
  v.elems.length

/-- `GetCapacity`: returns `capacity_`. -/
def getCapacity (v : SimpleVector α) : Nat :=
  v.capacity

/-- `IsEmpty`: `size_ == 0`. -/
def isEmpty (v : SimpleVector α) : Bool :=
  v.elems.length == 0

/-- The class invariant: the live elements fit in the allocated capacity
(`size_ <= capacity_`, the buffer having `capacity_` slots). -/
def WF (v : SimpleVector α) : Prop :=
  v.elems.length ≤ v.capacity

instance (v : SimpleVector α) : Decidable (WF v) := by
  unfold WF; infer_instance

/-- Default constructor `SimpleVector()`: `size_ = capacity_ = 0`, no buffer. -/
def mkDefault : SimpleVector α :=
  ⟨[], 0⟩

/-- Constructor `SimpleVector(size, value)`: `size` copies of `value`,
`capacity_ = size`. -/
def mkFill (n : Nat) (x : α) : SimpleVector α :=
  ⟨List.replicate n x, n⟩

/-- Constructor `SimpleVector(size)`: delegates to `SimpleVector(size, Type{})`. -/
def mkSized [Inhabited α] (n : Nat) : SimpleVector α :=
  mkFill n default

/-- Constructor from `std::initializer_list`: elements copied in order,
`size_ = capacity_ =` list length. -/
def ofList (l : List α) : SimpleVector α :=
  ⟨l, l.length⟩

/-- Constructor `SimpleVector(ReserveProxyObj)`: `size_ = 0`,
`capacity_ = reserved.capacity`. -/
def mkReserved (n : Nat) : SimpleVector α :=
  ⟨[], n⟩

/-- Copy constructor: new buffer of `other.size_` slots, elements copied;
`capacity_` becomes `other.size_`. -/
def copyCtor (other : SimpleVector α) : SimpleVector α :=
  ⟨other.elems, other.elems.length⟩

/-- `swap(other)`: exchanges `items_`, `size_` and `capacity_`; the pair holds
the post-states of `(this, other)`. -/
def swapSV (a b : SimpleVector α) : SimpleVector α × SimpleVector α :=
  (b, a)

/-- `Clear`: `size_ = 0`, capacity and buffer untouched. -/
def clear (v : SimpleVector α) : SimpleVector α :=
  ⟨[], v.capacity⟩

/-- Copy assignment `operator=(const SimpleVector&)`.  `sameObject` models the
`&rhs != this` address check; otherwise: clear the target when the source is
empty, build `rhs_copy(rhs)` and swap it in. -/
def copyAssign (self rhs : SimpleVector α) (sameObject : Bool) : SimpleVector α :=
  if sameObject then self
  else
    let self1 := if isEmpty rhs then clear self else self
    let rhsCopy := copyCtor rhs
    (swapSV self1 rhsCopy).1

/-- Private `ReallocateCopy(new_capacity)`: a fresh buffer of `new_capacity`
slots receiving the first `min(new_capacity, size_)` elements; its live content
as seen by the callers. -/
def reallocateCopy (v : SimpleVector α) (newCapacity : Nat) : List α :=
  v.elems.take (min newCapacity v.elems.length)

/-- `Reserve(new_capacity)`: when `capacity_ < new_capacity`, reallocate and set
`capacity_ = new_capacity`; otherwise a no-op. -/
def reserve (v : SimpleVector α) (newCapacity : Nat) : SimpleVector α :=
  if v.capacity < newCapacity then
    ⟨reallocateCopy v newCapacity, newCapacity⟩
  else v

/-- `Resize(new_size)`: grow the buffer to `max(capacity_ * 2, new_size)` when
`new_size > capacity_`, filling `[size_, new_size)` with `Type{}`; when
`size_ < new_size <= capacity_`, fill in place; finally `size_ = new_size`. -/
def resize [Inhabited α] (v : SimpleVector α) (newSize : Nat) : SimpleVector α :=
  if newSize > v.capacity then
    let newCapacity := max (v.capacity * 2) newSize
    ⟨reallocateCopy v newCapacity ++ List.replicate (newSize - v.elems.length) default,
     newCapacity⟩
  else if newSize > v.elems.length then
    ⟨v.elems ++ List.replicate (newSize - v.elems.length) default, v.capacity⟩
  else
    ⟨v.elems.take newSize, v.capacity⟩

/-- `PushBack(item)`: on overflow grow `capacity_` to `max(capacity_*2, size_+1)`
and reallocate, writing `item` at index `size_`; else write in place; `size_ += 1`.
The rvalue overload performs the same state change. -/
def pushBack (v : SimpleVector α) (item : α) : SimpleVector α :=
  let newSize := v.elems.length + 1
  if v.capacity < newSize then
    let newCapacity := max (v.capacity * 2) newSize
    ⟨reallocateCopy v newCapacity ++ [item], newCapacity⟩
  else
    ⟨v.elems ++ [item], v.capacity⟩

/-- `Insert(pos, value)` with `pos` the index `pos - cbegin()` (precondition
`pos <= size_`): shift the tail right in place when `size_ + 1 <= capacity_`,
else copy prefix, value and suffix into a buffer of `max(capacity_*2, size_+1)`
slots; `size_ += 1`.  The returned iterator is index `pos` of the result. -/
def insert (v : SimpleVector α) (pos : Nat) (value : α) : SimpleVector α :=
  let newSize := v.elems.length + 1
  if newSize ≤ v.capacity then
    ⟨v.elems.take pos ++ [value] ++ v.elems.drop pos, v.capacity⟩
  else
    ⟨v.elems.take pos ++ [value] ++ v.elems.drop pos, max (v.capacity * 2) newSize⟩

/-- `PopBack`: `size_ -= 1` (precondition: not empty). -/
def popBack (v : SimpleVector α) : SimpleVector α :=
  ⟨v.elems.dropLast, v.capacity⟩

/-- `Erase(pos)` with `pos` the index (precondition `pos < size_`): shift
`[pos+1, size_)` left by one, `size_ -= 1`. -/
def erase (v : SimpleVector α) (pos : Nat) : SimpleVector α :=
  ⟨v.elems.take pos ++ v.elems.drop (pos + 1), v.capacity⟩

/-- Unchecked `operator[](index)` (precondition `index < size_`). -/
def getUnchecked [Inhabited α] (v : SimpleVector α) (index : Nat) : α :=
  v.elems.getD index default

/-- The `std::out_of_range` failure signal of the checked access path. -/
inductive VecError where
  | outOfRange
deriving Repr, DecidableEq

/-- Checked `At(index)`: raises `std::out_of_range` when `index >= size_`,
otherwise returns `items_[index]`. -/
def atChecked [Inhabited α] (v : SimpleVector α) (index : Nat) : Except VecError α :=
  if index ≥ v.elems.length then Except.error VecError.outOfRange
  else Except.ok (v.elems.getD index default)

/-- `std::lexicographical_compare` over two element ranges, with `lt` the
element `operator<`. -/
def lexLt (lt : α → α → Bool) : List α → List α → Bool
  | _, [] => false
  | [], _ :: _ => true
  | a :: as, b :: bs =>
    if lt a b then true
    else if lt b a then false
    else lexLt lt as bs

/-- Free `operator<`: lexicographic comparison of the element sequences. -/
def ltSV (lt : α → α → Bool) (lhs rhs : SimpleVector α) : Bool :=
  lexLt lt lhs.elems rhs.elems

/-- Free `operator<=`: `!(rhs < lhs)`. -/
def leSV (lt : α → α → Bool) (lhs rhs : SimpleVector α) : Bool :=
  !(ltSV lt rhs lhs)

/-- Free `operator>`: `rhs < lhs`. -/
def gtSV (lt : α → α → Bool) (lhs rhs : SimpleVector α) : Bool :=
  ltSV lt rhs lhs

/-- Free `operator>=`: `!(lhs > rhs)` — exactly as written in the source. -/
def geSV (lt : α → α → Bool) (lhs rhs : SimpleVector α) : Bool :=
  !(gtSV lt lhs rhs)

/-- Element `operator<` of `int`. -/
def intLt (a b : Int) : Bool :=
  a < b

/-!
Exception-safety model.  To reason about what state an operation leaves behind
when an allocation throws (`ArrayPtr` construction inside `ReallocateCopy` or
inside `Insert`), the real allocation length of `items_` is tracked separately
from the `capacity_` field: the two coincide in every state reachable without
an exception, but `PushBack` and `Insert` mutate `capacity_` before performing
the allocation that can fail.  A `Bool` parameter says whether that allocation
throws; the `Except` error value is the container state observed after the
exception escapes.
-/

structure VecMem (α : Type) where
  elems : List α
  bufLen : Nat
  capacity : Nat
deriving Repr, DecidableEq

/-- Consistency of `size_` / `capacity_` / buffer: `capacity_` equals the real
allocation length and the live elements fit in it. -/
def Consistent (v : VecMem α) : Prop :=
  v.capacity = v.bufLen ∧ v.elems.length ≤ v.bufLen

instance (v : VecMem α) : Decidable (Consistent v) := by
  unfold Consistent; infer_instance

/-- `PushBack` with a fallible reallocation: the source assigns
`capacity_ = max(capacity_*2, size_+1)` and only then calls `ReallocateCopy`;
if that allocation throws, the exception escapes with `capacity_` already
changed and the old buffer still in place. -/
def pushBackF (v : VecMem α) (item : α) (allocThrows : Bool) :
    Except (VecMem α) (VecMem α) :=
  let newSize := v.elems.length + 1
  if v.capacity < newSize then
    let newCapacity := max (v.capacity * 2) newSize
    if allocThrows then Except.error ⟨v.elems, v.bufLen, newCapacity⟩
    else Except.ok ⟨v.elems ++ [item], newCapacity, newCapacity⟩
  else Except.ok ⟨v.elems ++ [item], v.bufLen, v.capacity⟩

/-- `Insert` with a fallible allocation: in the growth branch the source
assigns `capacity_ = max(capacity_*2, size_+1)` before `ItemsPtr items(capacity_)`;
if that allocation throws, the exception escapes with `capacity_` already
changed and the old buffer still in place. -/
def insertF (v : VecMem α) (pos : Nat) (value : α) (allocThrows : Bool) :
    Except (VecMem α) (VecMem α) :=
  let newSize := v.elems.length + 1
  if newSize ≤ v.capacity then
    Except.ok ⟨v.elems.take pos ++ [value] ++ v.elems.drop pos, v.bufLen, v.capacity⟩
  else
    let newCapacity := max (v.capacity * 2) newSize
    if allocThrows then Except.error ⟨v.elems, v.bufLen, newCapacity⟩
    else Except.ok ⟨v.elems.take pos ++ [value] ++ v.elems.drop pos,
                    newCapacity, newCapacity⟩

/-- `Reserve` with a fallible reallocation: `ReallocateCopy(new_capacity)` runs
before `items_` and `capacity_` are touched, so a throw leaves the container
unchanged. -/
def reserveF (v : VecMem α) (newCapacity : Nat) (allocThrows : Bool) :
    Except (VecMem α) (VecMem α) :=
  if v.capacity < newCapacity then
    if allocThrows then Except.error v
    else Except.ok ⟨v.elems.take (min newCapacity v.elems.length),
                    newCapacity, newCapacity⟩
  else Except.ok v

/-- `Resize` with a fallible reallocation in the growth branch: `new_capacity`
is a local until after the swap, so a throw leaves the container unchanged. -/
def resizeF [Inhabited α] (v : VecMem α) (newSize : Nat) (allocThrows : Bool) :
    Except (VecMem α) (VecMem α) :=
  if newSize > v.capacity then
    if allocThrows then Except.error v
    else
      let newCapacity := max (v.capacity * 2) newSize
      Except.ok ⟨v.elems.take (min newCapacity v.elems.length)
                   ++ List.replicate (newSize - v.elems.length) default,
                 newCapacity, newCapacity⟩
  else if newSize > v.elems.length then
    Except.ok ⟨v.elems ++ List.replicate (newSize - v.elems.length) default,
               v.bufLen, v.capacity⟩
  else
    Except.ok ⟨v.elems.take newSize, v.bufLen, v.capacity⟩

/-- Copy assignment with a fallible copy: `auto rhs_copy(rhs)` runs before the
target is swapped, so a throw leaves the target unchanged (the empty-source
`Clear()` branch runs only when the source is empty, in which case the copy
allocates nothing and cannot throw). -/
def copyAssignF (self rhs : VecMem α) (sameObject copyThrows : Bool) :
    Except (VecMem α) (VecMem α) :=
  if sameObject then Except.ok self
  else
    let self1 := if rhs.elems.length == 0 then ⟨[], self.bufLen, self.capacity⟩
                 else self
    if rhs.elems.length == 0 then
      Except.ok ⟨rhs.elems, rhs.elems.length, rhs.elems.length⟩
    else if copyThrows then Except.error self1
    else Except.ok ⟨rhs.elems, rhs.elems.length, rhs.elems.length⟩

/-!
Theorems about the claims.
-/

/-- C1: the growth operations are not atomic — starting from the consistent
state `{1}` (size 1, capacity 1, one-slot buffer), a `PushBack(2)` whose
reallocation throws escapes with `capacity_ = 2` while the buffer still has
one slot, an inconsistent state; `Insert` at the end has the same defect. -/
theorem pushBack_growth_not_atomic :
    Consistent (⟨[1], 1, 1⟩ : VecMem Int) ∧
    pushBackF (⟨[1], 1, 1⟩ : VecMem Int) 2 true = Except.error ⟨[1], 1, 2⟩ ∧
    ¬ Consistent (⟨[1], 1, 2⟩ : VecMem Int) ∧
    insertF (⟨[1], 1, 1⟩ : VecMem Int) 1 2 true = Except.error ⟨[1], 1, 2⟩ :=
  ⟨by decide, rfl, by decide, rfl⟩

/-- C2 counterexample: copy-assignment can decrease capacity — assigning the
one-element vector `{1}` into a target of capacity 10 leaves the target with
capacity 1. -/
theorem capacity_decreases_on_copyAssign :
    getCapacity (copyAssign (⟨[], 10⟩ : SimpleVector Int) (ofList [1]) false)
      < getCapacity (⟨[], 10⟩ : SimpleVector Int) := by
  decide

/-- C2 amended: capacity never decreases across the growth and size-changing
operations `PushBack`, `Insert`, `Erase`, `PopBack`, `Clear`, `Resize` and
`Reserve`; copy-assignment (and `swap`), which adopt the source's capacity,
can decrease it. -/
theorem capacity_monotone_growth_ops (α : Type) [Inhabited α] :
    (∀ (v : SimpleVector α) (x : α), getCapacity v ≤ getCapacity (pushBack v x)) ∧
    (∀ (v : SimpleVector α) (p : Nat) (x : α),
      getCapacity v ≤ getCapacity (insert v p x)) ∧
    (∀ (v : SimpleVector α) (p : Nat), getCapacity v ≤ getCapacity (erase v p)) ∧
    (∀ (v : SimpleVector α), getCapacity v ≤ getCapacity (popBack v)) ∧
    (∀ (v : SimpleVector α), getCapacity v ≤ getCapacity (clear v)) ∧
    (∀ (v : SimpleVector α) (n : Nat), getCapacity v ≤ getCapacity (resize v n)) ∧
    (∀ (v : SimpleVector α) (n : Nat), getCapacity v ≤ getCapacity (reserve v n)) := by
  refine ⟨?_, ?_, ?_, ?_, ?_, ?_, ?_⟩ <;> intros <;>
    simp only [pushBack, insert, erase, popBack, clear, resize, reserve,
      getCapacity] <;>
    (repeat' split) <;> (try dsimp only) <;> omega

/-- C3: for a well-formed vector of size `s` and capacity `c` and any
`n > c`, `Resize(n)` sets capacity to `max(c * 2, n)`, sets size to `n`, and
the resulting sequence is the original elements followed by `n - s` default
values. -/
theorem resize_grow {α : Type} [Inhabited α] (v : SimpleVector α) (n : Nat)
    (hwf : WF v) (hc : getCapacity v < n) :
    getCapacity (resize v n) = max (getCapacity v * 2) n ∧
    getSize (resize v n) = n ∧
    (resize v n).elems = v.elems ++ List.replicate (n - getSize v) default := by
  unfold WF at hwf
  unfold getCapacity at hc
  have hs : v.elems.length ≤ max (v.capacity * 2) n := by omega
  have he : (resize v n).elems = v.elems ++ List.replicate (n - getSize v) default := by
    simp only [resize, reallocateCopy, getSize, if_pos hc, Nat.min_eq_right hs,
      List.take_length]
  refine ⟨?_, ?_, he⟩
  · simp only [resize, getCapacity, if_pos hc]
  · unfold getSize
    rw [he]
    simp only [List.length_append, List.length_replicate, getSize]
    omega

/-- Witness for C3 at the vector `{1, 2}` and `n = 5`. -/
theorem resize_grow_witness :
    WF (ofList ([1, 2] : List Int)) ∧
    getCapacity (ofList ([1, 2] : List Int)) < 5 ∧
    (getCapacity (resize (ofList ([1, 2] : List Int)) 5)
        = max (getCapacity (ofList ([1, 2] : List Int)) * 2) 5 ∧
      getSize (resize (ofList ([1, 2] : List Int)) 5) = 5 ∧
      (resize (ofList ([1, 2] : List Int)) 5).elems
        = (ofList ([1, 2] : List Int)).elems
            ++ List.replicate (5 - getSize (ofList ([1, 2] : List Int))) default) :=
  ⟨by decide, by decide, resize_grow (ofList [1, 2]) 5 (by decide) (by decide)⟩

/-- C4: from `{1,2,3}`, inserting 9 at index 1 yields `{1,9,2,3}` with size 4,
and erasing index 0 of that result yields `{9,2,3}` with size 3. -/
theorem insert_erase_scenario :
    (insert (ofList ([1, 2, 3] : List Int)) 1 9).elems = [1, 9, 2, 3] ∧
    getSize (insert (ofList ([1, 2, 3] : List Int)) 1 9) = 4 ∧
    (erase (insert (ofList ([1, 2, 3] : List Int)) 1 9) 0).elems = [9, 2, 3] ∧
    getSize (erase (insert (ofList ([1, 2, 3] : List Int)) 1 9) 0) = 3 := by
  decide

/-- C5: for a well-formed vector, `Reserve(n)` with `n > capacity` sets the
capacity to exactly `n` leaving size and elements unchanged, and with
`n ≤ capacity` is a no-op; concretely, on a default-constructed `int` vector,
`Reserve(10)` gives size 0 and capacity 10, and a subsequent `PushBack(5)`
gives size 1 with capacity still 10. -/
theorem reserve_spec {α : Type} (v : SimpleVector α) (n : Nat) (hwf : WF v) :
    (getCapacity v < n →
      getCapacity (reserve v n) = n ∧ (reserve v n).elems = v.elems ∧
      getSize (reserve v n) = getSize v) ∧
    (n ≤ getCapacity v → reserve v n = v) ∧
    (getSize (reserve (mkDefault (α := Int)) 10) = 0 ∧
     getCapacity (reserve (mkDefault (α := Int)) 10) = 10 ∧
     getSize (pushBack (reserve (mkDefault (α := Int)) 10) 5) = 1 ∧
     getCapacity (pushBack (reserve (mkDefault (α := Int)) 10) 5) = 10) := by
  unfold WF at hwf
  refine ⟨?_, ?_, by decide, by decide, by decide, by decide⟩
  · intro hn
    unfold getCapacity at hn
    have hm : v.elems.length ≤ n := by omega
    simp [reserve, reallocateCopy, getCapacity, getSize, if_pos hn,
      Nat.min_eq_right hm]
  · intro hn
    unfold getCapacity at hn
    simp only [reserve, if_neg (by omega : ¬ v.capacity < n)]

/-- Witness for C5 at the vector `{1}` with `n = 3`. -/
theorem reserve_spec_witness :
    WF (ofList ([1] : List Int)) ∧
    getCapacity (ofList ([1] : List Int)) < 3 ∧
    getCapacity (reserve (ofList ([1] : List Int)) 3) = 3 :=
  ⟨by decide, by decide,
    ((reserve_spec (ofList ([1] : List Int)) 3 (by decide)).1 (by decide)).1⟩

/-- C6: for every vector `v` and value `x`, `PushBack(x)` followed by
`PopBack()` restores the original element sequence and size (the capacity may
differ). -/
theorem pushBack_popBack_roundtrip {α : Type} (v : SimpleVector α) (x : α) :
    (popBack (pushBack v x)).elems = v.elems ∧
    getSize (popBack (pushBack v x)) = getSize v := by
  have hs : v.elems.length ≤ max (v.capacity * 2) (v.elems.length + 1) :=
    le_trans (Nat.le_succ _) (le_max_right _ _)
  have he : (popBack (pushBack v x)).elems = v.elems := by
    simp only [popBack, pushBack, reallocateCopy, Nat.min_eq_right hs,
      List.take_length]
    split <;> simp
  exact ⟨he, by unfold getSize; rw [he]⟩

/-- C7: the concrete lexicographic orderings `{1,2} < {1,2,3}`,
`{1,2,3} < {1,3}` and `{1,2} < {1,3}` all hold, but `operator>=`, written as
`!(lhs > rhs)` rather than the standard `!(lhs < rhs)`, also makes
`{1} >= {2}` hold together with `{1} < {2}` — so `>=` is not the standard
derivation from `<`. -/
theorem comparison_scenario :
    ltSV intLt (ofList [1, 2]) (ofList [1, 2, 3]) = true ∧
    ltSV intLt (ofList [1, 2, 3]) (ofList [1, 3]) = true ∧
    ltSV intLt (ofList [1, 2]) (ofList [1, 3]) = true ∧
    ltSV intLt (ofList [1]) (ofList [2]) = true ∧
    geSV intLt (ofList [1]) (ofList [2]) = true := by
  decide

/-- C8: `At(index)` raises `OutOfRange` exactly when `index ≥ size`, returns
the element at `index` otherwise, and concretely `At(3)` on the size-3 vector
`{1,2,3}` raises `OutOfRange`. -/
theorem atChecked_spec {α : Type} [Inhabited α] (v : SimpleVector α) (i : Nat) :
    (atChecked v i = Except.error VecError.outOfRange ↔ getSize v ≤ i) ∧
    (i < getSize v → atChecked v i = Except.ok (v.elems.getD i default)) ∧
    atChecked (ofList ([1, 2, 3] : List Int)) 3 = Except.error VecError.outOfRange := by
  refine ⟨?_, ?_, rfl⟩
  · unfold atChecked getSize
    split <;> rename_i hge <;> simp <;> omega
  · intro hi
    unfold getSize at hi
    simp only [atChecked, if_neg (by omega : ¬ i ≥ v.elems.length)]

/-- Witness for C8 at the vector `{10, 20}` with index 1. -/
theorem atChecked_spec_witness :
    1 < getSize (ofList ([10, 20] : List Int)) ∧
    atChecked (ofList ([10, 20] : List Int)) 1
      = Except.ok ((ofList ([10, 20] : List Int)).elems.getD 1 default) :=
  ⟨by decide, (atChecked_spec (ofList ([10, 20] : List Int)) 1).2.1 (by decide)⟩

/-- C9: copy-assigning a vector to itself (the `&rhs != this` identity check
fires) leaves size, capacity and elements unchanged. -/
theorem copyAssign_self_noop {α : Type} (v : SimpleVector α) :
    copyAssign v v true = v := by
  simp [copyAssign]

/-- C10: wherever the precondition `index < size` of the unchecked
`operator[]` holds, the checked `At(index)` returns the same element. -/
theorem atChecked_agrees_unchecked {α : Type} [Inhabited α]
    (v : SimpleVector α) (i : Nat) (h : i < getSize v) :
    atChecked v i = Except.ok (getUnchecked v i) := by
  unfold getSize at h
  simp only [atChecked, getUnchecked, if_neg (by omega : ¬ i ≥ v.elems.length)]

/-- Witness for C10 at the vector `{7, 8}` with index 0. -/
theorem atChecked_agrees_unchecked_witness :
    0 < getSize (ofList ([7, 8] : List Int)) ∧
    atChecked (ofList ([7, 8] : List Int)) 0
      = Except.ok (getUnchecked (ofList ([7, 8] : List Int)) 0) :=
  ⟨by decide, atChecked_agrees_unchecked (ofList ([7, 8] : List Int)) 0 (by decide)⟩

end SimpleVec
